import Mathlib

/-!
Verification of the incremental-sync/upsert reconciliation logic of the
stockmarket ETL repository.

Each definition below is a shallow embedding of a Python function or loop
from the repository's `data_ingestion` scripts.  Python scalars are embedded
as an inductive `Value` (None, float NaN, numbers as exact rationals —
Python `Decimal` equality is numeric, so rationals are the right carrier —
and strings).  Database tables are embedded as lists of row structures,
sessions as explicit state passing, and exceptions as `Except`.
-/

namespace Stockmarket

/-- A Python scalar as it appears in a record field: `None`, a float `nan`,
a number (int / float / Decimal, embedded exactly as a rational), or a
string. -/
inductive Value where
  | vnone : Value
  | vnan : Value
  | vnum : ℚ → Value
  | vstr : String → Value
  deriving DecidableEq, Repr

/-- Python `str(code)` on a scalar.  `str(None) = "None"`, `str(float('nan'))
= "nan"`; the rendering of a number is never blank and never the string
"nan" (no theorem below depends on its exact digits). -/
def pyStr : Value → String
  | .vnone => "None"
  | .vnan => "nan"
  | .vnum q => toString q.num ++ (if q.den = 1 then "" else "/" ++ toString q.den)
  | .vstr s => s

/-- Python `str.strip()`: remove leading and trailing whitespace. -/
def pyStrip (s : String) : String :=
  String.mk (((s.data.dropWhile Char.isWhitespace).reverse.dropWhile
    Char.isWhitespace).reverse)

/-- Python `str.lower()`. -/
def pyLower (s : String) : String :=
  String.mk (s.data.map Char.toLower)

/-- `is_valid_code` from `2.3_daily_prices.py` (lines 36-45), copied
verbatim across the ingestion scripts:

    if code is None: return False
    if isinstance(code, float) and math.isnan(code): return False
    if str(code).strip().lower() == 'nan': return False
    if str(code).strip() == '': return False
    return True
-/
def is_valid_code (code : Value) : Bool :=
  if code = .vnone then false
  else if code = .vnan then false
  else if pyLower (pyStrip (pyStr code)) = "nan" then false
  else if pyStrip (pyStr code) = "" then false
  else true

/-- `clean_code` from `1.1_import_screener_companies.py` (lines 44-53):
returns `None` for invalid codes, otherwise the stripped string form. -/
def clean_code (code : Value) : Option String :=
  if ¬ is_valid_code code then Option.none
  else
    let code_str := pyStrip (pyStr code)
    if pyLower code_str = "nan" then Option.none
    else some code_str

/-- Fate of one CSV row in the daily company import
(`1.1_import_screener_companies_daily.py`, lines 114-140): rejected when
both cleaned codes are falsy, otherwise classified as an existing company
(when a truthy code is already known) or a new one. -/
inductive RowFate where
  | rejected : RowFate
  | isNew : RowFate
  | isExisting : RowFate
  deriving DecidableEq, Repr

/-- Python truthiness test `code and code in existing_codes` for a cleaned
code (`clean_code` returns `None` or a non-empty stripped string, so
truthiness is `isSome`). -/
def truthyIn (c : Option String) (l : List String) : Bool :=
  match c with
  | some s => l.contains s
  | Option.none => false

/-- The row classification of `import_new_companies_from_csv`
(`1.1_import_screener_companies_daily.py`): `if not nse_code and not
bse_code: csv_invalid_rows += 1; continue`, then the `is_new` if/elif chain
against the sets of existing NSE/BSE codes. -/
def import_row_fate (nse_raw bse_raw : Value)
    (existing_nse existing_bse : List String) : RowFate :=
  let nse_code := clean_code nse_raw
  let bse_code := clean_code bse_raw
  if nse_code = Option.none ∧ bse_code = Option.none then .rejected
  else if truthyIn nse_code existing_nse then .isExisting
  else if truthyIn bse_code existing_bse then .isExisting
  else .isNew

/-- A company row with the four fields handled by the screener import. -/
structure CompanyRow where
  name : Value
  nse_code : Value
  bse_code : Value
  industry : Value
  deriving DecidableEq, Repr

/-- The update branch of `import_companies_from_csv`
(`1.1_import_screener_companies.py`, lines 107-113):

    for key, value in company_data.items():
        if value is not None:
            setattr(existing_company, key, value)

Only non-None incoming values are written. -/
def update_existing_company (existing incoming : CompanyRow) : CompanyRow :=
  { name := if incoming.name ≠ .vnone then incoming.name else existing.name,
    nse_code := if incoming.nse_code ≠ .vnone then incoming.nse_code else existing.nse_code,
    bse_code := if incoming.bse_code ≠ .vnone then incoming.bse_code else existing.bse_code,
    industry := if incoming.industry ≠ .vnone then incoming.industry else existing.industry }

/-- A raw value as delivered by the yfinance dataframe: `None`, a float
NaN, a number, or a numpy/pandas numeric wrapper (whose `.item()` yields
the wrapped value). -/
inductive RawVal where
  | rnone : RawVal
  | rnan : RawVal
  | rnum : ℚ → RawVal
  | wrapped : RawVal → RawVal
  deriving DecidableEq, Repr

/-- `get_scalar` from `2.3_daily_prices.py` (lines 47-61): `None` stays
`None`, wrappers are unwrapped via `.item()`, and a float NaN is
normalized to `None`; every other value is returned as-is. -/
def get_scalar : RawVal → Option ℚ
  | .rnone => Option.none
  | .rnan => Option.none
  | .rnum q => some q
  | .wrapped v => get_scalar v

/-- A row of the `prices` table (`backend/models.py`, lines 156-172).
`last_modified` is a nullable column with no default. -/
structure Price where
  company_id : ℕ
  company_code : String
  company_name : String
  date : ℕ
  open_ : Option ℚ
  high : Option ℚ
  low : Option ℚ
  close : Option ℚ
  volume : Option ℚ
  adj_close : Option ℚ
  last_modified : Option ℕ
  deriving DecidableEq, Repr

/-- One fetched dataframe row (the OHLCV columns of one date). -/
structure FetchedRow where
  open_ : RawVal
  high : RawVal
  low : RawVal
  close : RawVal
  volume : RawVal
  adj_close : RawVal
  deriving DecidableEq, Repr

/-- Construction of a `Price` object in `fetch_latest_prices`
(`2.3_daily_prices.py`, lines 143-151): each OHLCV field goes through
`get_scalar`; the script never assigns `last_modified`, so the row keeps
the column's NULL default. -/
def build_price (cid : ℕ) (cname code : String) (d : ℕ) (r : FetchedRow) : Price :=
  { company_id := cid, company_code := code, company_name := cname, date := d,
    open_ := get_scalar r.open_,
    high := get_scalar r.high,
    low := get_scalar r.low,
    close := get_scalar r.close,
    volume := get_scalar r.volume,
    adj_close := get_scalar r.adj_close,
    last_modified := Option.none }

/-- The guard of `2.3_daily_prices.py` lines 151-158: a price object is
kept only when at least one of open/high/low/close/volume is non-None
(`adj_close` does not participate). -/
def keep_price (p : Price) : Bool :=
  p.open_.isSome || p.high.isSome || p.low.isSome || p.close.isSome || p.volume.isSome

/-- The row loop of `fetch_latest_prices` that accumulates
`price_objects`: build each row's `Price` and append it iff the `any`
guard passes. -/
def build_price_objects (cid : ℕ) (cname code : String) :
    List (ℕ × FetchedRow) → List Price
  | [] => []
  | (d, r) :: rest =>
      let p := build_price cid cname code d r
      if keep_price p then p :: build_price_objects cid cname code rest
      else build_price_objects cid cname code rest

/-- The natural key of a price row as used by the existence check:
`(company_code, date)`. -/
def price_key (p : Price) : String × ℕ := (p.company_code, p.date)

/-- `new_prices = [p for p in price_objects if (p.company_code, p.date)
not in existing_keys]` (`2.3_daily_prices.py`, line 168). -/
def new_prices (price_objects : List Price) (existing_keys : List (String × ℕ)) :
    List Price :=
  price_objects.filter (fun p => ! existing_keys.contains (price_key p))

/-- The daily bulk insert (`session.bulk_save_objects(new_prices)`,
`2.3_daily_prices.py` lines 170-173): plain appends, no conflict handling
(the `prices` table has only non-unique indexes). -/
def daily_insert_prices (store : List Price) (price_objects : List Price)
    (existing_keys : List (String × ℕ)) : List Price :=
  store ++ new_prices price_objects existing_keys

/-- The key set visible to a later run after a bulk insert: the previous
keys plus the keys of the inserted rows. -/
def apply_insert_keys (existing_keys : List (String × ℕ)) (inserted : List Price) :
    List (String × ℕ) :=
  existing_keys ++ inserted.map price_key

/-- The `on_conflict_do_update` SET list of the onetime price upsert
(`onetime/2.1_onetime_prices.py`, lines 248-275): all data fields plus
`last_modified`, `company_code` and `company_name` are overwritten;
`company_id` and `date` (the conflict key) and the row id are kept. -/
def upsert_set_fields (q p : Price) : Price :=
  { q with open_ := p.open_, high := p.high, low := p.low, close := p.close,
           volume := p.volume, adj_close := p.adj_close,
           last_modified := p.last_modified,
           company_code := p.company_code, company_name := p.company_name }

/-- One `INSERT ... ON CONFLICT (company_id, date) DO UPDATE` statement:
if a row with the conflict key exists it is updated in place, otherwise
the new row is appended. -/
def upsert_price (store : List Price) (p : Price) : List Price :=
  if store.any (fun q => q.company_id == p.company_id && q.date == p.date) then
    store.map (fun q =>
      if q.company_id == p.company_id && q.date == p.date then upsert_set_fields q p else q)
  else store ++ [p]

/-- Result of one per-company block of the onetime price import. -/
structure OnetimeResult where
  store : List Price
  new_count : ℕ
  dup_count : ℕ
  deriving DecidableEq, Repr

/-- The per-company storage block of `onetime/2.1_onetime_prices.py`
(lines 234-280): snapshot the existing keys, keep only price objects whose
key is absent, count the rest as `duplicate_price_records`
(`len(price_objects) - len(new_prices)`), then upsert the new ones in
order. -/
def store_company_prices (store : List Price) (price_objects : List Price) :
    OnetimeResult :=
  let existing_keys := store.map price_key
  let new_ps := new_prices price_objects existing_keys
  { store := new_ps.foldl upsert_price store,
    new_count := new_ps.length,
    dup_count := price_objects.length - new_ps.length }

/-- A numeric-or-missing field value as it actually flows through the
holders/financial-statement pipelines: `None`, a float NaN, or a number
(the scripts convert percentage strings to floats before building the
record, with conversion failures mapped to `None`). -/
inductive NumVal where
  | nnone : NumVal
  | nnan : NumVal
  | nnum : ℚ → NumVal
  deriving DecidableEq, Repr

/-- An optional Decimal: the result of `Decimal(str(v)) if v is not None
else None`.  `Decimal('nan')` is a valid NaN Decimal. -/
inductive DecOpt where
  | dnone : DecOpt
  | dnan : DecOpt
  | ddec : ℚ → DecOpt
  deriving DecidableEq, Repr

/-- `Decimal(str(v)) if v is not None else None` on a numeric field value
(`8.2_daily_major_holders.py` lines 252-256, and `to_decimal` in
`6.2_daily_financial_statements.py` lines 310-317).  On the numeric value
range this conversion never raises, so the two scripts' different
exception arms coincide. -/
def to_dec : NumVal → DecOpt
  | .nnone => .dnone
  | .nnan => .dnan
  | .nnum q => .ddec q

/-- Python `!=` on `Optional[Decimal]`: `None` equals only `None`, a NaN
Decimal is unequal to everything (itself included), and finite Decimals
compare numerically (so `Decimal('100')` equals `Decimal('100.00')`). -/
def decNe : DecOpt → DecOpt → Bool
  | .dnone, .dnone => false
  | .dnan, _ => true
  | _, .dnan => true
  | .dnone, _ => true
  | _, .dnone => true
  | .ddec a, .ddec b => a ≠ b

/-- The six fields of a major-holder record as compared by
`compare_major_holders` (both the incoming dict built by
`fetch_major_holders_yf` and the per-row dict built by
`get_existing_major_holders` carry exactly these). -/
structure HolderData where
  holder_name : String
  holder_type : String
  shares_held : NumVal
  percentage_held : NumVal
  value : NumVal
  currency : Option String
  deriving DecidableEq, Repr

/-- A row of the `major_holders` table (`backend/models.py`, lines
258-274). -/
structure HolderRow where
  id : ℕ
  company_id : ℕ
  company_code : String
  company_name : String
  date : ℕ
  holder_name : String
  holder_type : String
  shares_held : NumVal
  percentage_held : NumVal
  value : NumVal
  currency : Option String
  last_modified : Option ℕ
  deriving DecidableEq, Repr

/-- The comparison dict `get_existing_major_holders` builds from a row. -/
def rowData (h : HolderRow) : HolderData :=
  { holder_name := h.holder_name, holder_type := h.holder_type,
    shares_held := h.shares_held, percentage_held := h.percentage_held,
    value := h.value, currency := h.currency }

/-- `compare_major_holders` (`8.2_daily_major_holders.py`, lines 241-263):
walks the six key fields in order, routing `shares_held`,
`percentage_held` and `value` through the Decimal normalization, and
returns True (changed) as soon as one field differs. -/
def compare_major_holders (nd ed : HolderData) : Bool :=
  nd.holder_name ≠ ed.holder_name ||
  nd.holder_type ≠ ed.holder_type ||
  decNe (to_dec nd.shares_held) (to_dec ed.shares_held) ||
  decNe (to_dec nd.percentage_held) (to_dec ed.percentage_held) ||
  decNe (to_dec nd.value) (to_dec ed.value) ||
  nd.currency ≠ ed.currency

/-- The thirteen tracked numeric fields of a financial statement record
(`6.2_daily_financial_statements.py`, lines 319-324). -/
structure FinStmtData where
  total_revenue : NumVal
  gross_profit : NumVal
  operating_income : NumVal
  net_income : NumVal
  eps : NumVal
  total_assets : NumVal
  total_liabilities : NumVal
  total_equity : NumVal
  cash_and_equivalents : NumVal
  total_debt : NumVal
  operating_cash_flow : NumVal
  financing_cash_flow : NumVal
  free_cash_flow : NumVal
  deriving DecidableEq, Repr

/-- `compare_financial_statements` (`6.2_daily_financial_statements.py`,
lines 308-333): every tracked field is converted via `to_decimal` and the
record is changed when any converted pair differs. -/
def compare_financial_statements (nd ed : FinStmtData) : Bool :=
  decNe (to_dec nd.total_revenue) (to_dec ed.total_revenue) ||
  decNe (to_dec nd.gross_profit) (to_dec ed.gross_profit) ||
  decNe (to_dec nd.operating_income) (to_dec ed.operating_income) ||
  decNe (to_dec nd.net_income) (to_dec ed.net_income) ||
  decNe (to_dec nd.eps) (to_dec ed.eps) ||
  decNe (to_dec nd.total_assets) (to_dec ed.total_assets) ||
  decNe (to_dec nd.total_liabilities) (to_dec ed.total_liabilities) ||
  decNe (to_dec nd.total_equity) (to_dec ed.total_equity) ||
  decNe (to_dec nd.cash_and_equivalents) (to_dec ed.cash_and_equivalents) ||
  decNe (to_dec nd.total_debt) (to_dec ed.total_debt) ||
  decNe (to_dec nd.operating_cash_flow) (to_dec ed.operating_cash_flow) ||
  decNe (to_dec nd.financing_cash_flow) (to_dec ed.financing_cash_flow) ||
  decNe (to_dec nd.free_cash_flow) (to_dec ed.free_cash_flow)

/-- The company dict of `get_companies_with_yf_tickers`. -/
structure CompanyInfo where
  id : ℕ
  name : String
  nse_code : Option String
  bse_code : Option String
  deriving DecidableEq, Repr

/-- `company['nse_code'] or company['bse_code']` (Python or-truthiness;
the query already filters codes that are None or empty). -/
def company_code_of (c : CompanyInfo) : String :=
  match c.nse_code with
  | some s => if s = "" then c.bse_code.getD "" else s
  | Option.none => c.bse_code.getD ""

/-- The dict key `f"{holder_name}_{holder_type}"` used both by
`get_existing_major_holders` and by the loop of `insert_major_holders`. -/
def holderKey (name ty : String) : String := name ++ "_" ++ ty

/-- The key of a stored row. -/
def rowKey (h : HolderRow) : String := holderKey h.holder_name h.holder_type

/-- The key of an incoming record. -/
def dataKey (hd : HolderData) : String := holderKey hd.holder_name hd.holder_type

/-- `get_existing_major_holders` (`8.2_daily_major_holders.py`, lines
107-133): query the rows of this company and date and fold them into a
dict keyed by `f"{holder_name}_{holder_type}"`; a later row overwrites an
earlier one under the same key (Python dict assignment). -/
def get_existing (rows : List HolderRow) (cid d : ℕ) : String → Option HolderRow :=
  (rows.filter (fun h => h.company_id == cid && h.date == d)).foldl
    (fun m h => fun k => if k = rowKey h then some h else m k)
    (fun _ => Option.none)

/-- Which branch of the `insert_major_holders` loop an incoming record
takes, as a function of the existing-data snapshot alone. -/
inductive Outcome where
  | insert : Outcome
  | update : Outcome
  | unchanged : Outcome
  deriving DecidableEq, Repr

/-- The branch decision for one record: present and changed → update,
present and unchanged → skip, absent → insert. -/
def holderOutcome (existing : String → Option HolderRow) (hd : HolderData) : Outcome :=
  match existing (dataKey hd) with
  | some ed => if compare_major_holders hd (rowData ed) then .update else .unchanged
  | Option.none => .insert

/-- The SQLAlchemy session state threaded through the loop, plus the
partition bookkeeping: which incoming indices took the insert, update and
unchanged branches. -/
structure MHState where
  storage : List HolderRow
  inserted_count : ℕ
  updated_count : ℕ
  nextId : ℕ
  inserts : List ℕ
  updates : List ℕ
  unchanged : List ℕ
  deriving DecidableEq, Repr

/-- The new `MajorHolder(...)` constructed in the insert branch
(`8.2_daily_major_holders.py`, lines 294-308): all six data fields come
from the incoming dict and `last_modified` is set to the CSV date. -/
def newHolderRow (i : ℕ) (company : CompanyInfo) (hd : HolderData) (d : ℕ) : HolderRow :=
  { id := i, company_id := company.id, company_code := company_code_of company,
    company_name := company.name, date := d,
    holder_name := hd.holder_name, holder_type := hd.holder_type,
    shares_held := hd.shares_held, percentage_held := hd.percentage_held,
    value := hd.value, currency := hd.currency, last_modified := some d }

/-- The update branch's `setattr` loop (`8.2_daily_major_holders.py`,
lines 286-292): every field of the incoming dict is written, None values
included, then `last_modified` is set to the CSV date. -/
def applyHolderUpdate (r : HolderRow) (hd : HolderData) (d : ℕ) : HolderRow :=
  { r with holder_name := hd.holder_name, holder_type := hd.holder_type,
           shares_held := hd.shares_held, percentage_held := hd.percentage_held,
           value := hd.value, currency := hd.currency, last_modified := some d }

/-- `session.query(MajorHolder).filter(MajorHolder.id == ...)` followed by
the setattr loop: update the row(s) carrying the given primary key. -/
def updateById (rows : List HolderRow) (i : ℕ) (hd : HolderData) (d : ℕ) : List HolderRow :=
  rows.map (fun r => if r.id = i then applyHolderUpdate r hd d else r)

/-- One iteration of the `for holder_data in holders_data` loop of
`insert_major_holders` (`8.2_daily_major_holders.py`, lines 274-313).
The branch is decided against the `existing_data` snapshot taken at entry,
which the loop never refreshes. -/
def mhStep (existing : String → Option HolderRow) (company : CompanyInfo) (d : ℕ)
    (s : MHState) (i : ℕ) (hd : HolderData) : MHState :=
  match existing (dataKey hd) with
  | some ed =>
      if compare_major_holders hd (rowData ed) then
        { s with storage := updateById s.storage ed.id hd d,
                 updated_count := s.updated_count + 1,
                 updates := s.updates ++ [i] }
      else
        { s with unchanged := s.unchanged ++ [i] }
  | Option.none =>
      { s with storage := s.storage ++ [newHolderRow s.nextId company hd d],
               inserted_count := s.inserted_count + 1,
               nextId := s.nextId + 1,
               inserts := s.inserts ++ [i] }

/-- The whole loop, indexing the incoming records from `i`. -/
def mhLoop (existing : String → Option HolderRow) (company : CompanyInfo) (d : ℕ) :
    List HolderData → ℕ → MHState → MHState
  | [], _, s => s
  | hd :: rest, i, s =>
      mhLoop existing company d rest (i + 1) (mhStep existing company d s i hd)

/-- The next autoincrement primary key of the table. -/
def max_id (rows : List HolderRow) : ℕ :=
  rows.foldl (fun m r => max m r.id) 0

/-- `insert_major_holders` (`8.2_daily_major_holders.py`, lines 265-321):
snapshot the existing data for this company and CSV date, then run the
loop over the incoming records. -/
def insert_major_holders (storage : List HolderRow) (company : CompanyInfo)
    (holders_data : List HolderData) (d : ℕ) : MHState :=
  mhLoop (get_existing storage company.id d) company d holders_data 0
    { storage := storage, inserted_count := 0, updated_count := 0,
      nextId := max_id storage + 1,
      inserts := [], updates := [], unchanged := [] }

/-- `insert_major_holders` with an injected storage failure.  The function
body is wrapped in try/except that rolls the session back and re-raises
(`8.2_daily_major_holders.py`, lines 318-321), so on failure the stored
state is unchanged and the exception propagates. -/
def insert_major_holders_f (storage : List HolderRow) (company : CompanyInfo)
    (holders_data : List HolderData) (d : ℕ) (dbFail : Bool) : Except String MHState :=
  if dbFail then .error "SQLAlchemyError"
  else .ok (insert_major_holders storage company holders_data d)

/-- `process_company_major_holders` (`8.2_daily_major_holders.py`, lines
323-347): the insert call is wrapped in try/except that logs and returns
`(0, 0)`, so a failed batch contributes nothing and processing goes on. -/
def process_company_major_holders (storage : List HolderRow) (company : CompanyInfo)
    (holders_data : List HolderData) (d : ℕ) (dbFail : Bool) :
    List HolderRow × ℕ × ℕ :=
  match insert_major_holders_f storage company holders_data d dbFail with
  | .ok s => (s.storage, s.inserted_count, s.updated_count)
  | .error _ => (storage, 0, 0)

/-- The per-company loop of `main` in `8.2_daily_major_holders.py` (lines
380-404): accumulate total inserted/updated counts, continuing with the
next company after a failure. -/
def process_companies (storage : List HolderRow) (d : ℕ) :
    List (CompanyInfo × List HolderData × Bool) → List HolderRow × ℕ × ℕ
  | [] => (storage, 0, 0)
  | (c, batch, fail) :: rest =>
      let r1 := process_company_major_holders storage c batch d fail
      let r2 := process_companies r1.1 d rest
      (r2.1, r1.2.1 + r2.2.1, r1.2.2 + r2.2.2)

/-- A row of the `corporate_actions` table (the fields set by
`3.2_daily_corporate_actions.py`). -/
structure CARow where
  company_code : String
  date : ℕ
  action_type : String
  details : String
  last_modified : ℕ
  deriving DecidableEq, Repr

/-- The bulk-operations block of `fetch_and_store_latest_corporate_actions`
(`3.2_daily_corporate_actions.py`, lines 284-302): bulk insert and commit
inside try, and on exception `session.rollback()`, a `database_errors`
increment, a log line, and then `raise` — the exception propagates and the
run aborts. -/
def bulk_ops_corporate_actions (store : List CARow) (to_add : List CARow)
    (db_errors : ℕ) (dbFail : Bool) : Except (List CARow × ℕ) (List CARow × ℕ) :=
  if to_add ≠ [] then
    if dbFail then .error (store, db_errors + 1)
    else .ok (store ++ to_add, db_errors)
  else .ok (store, db_errors)

/-- The retry loop of `fetch_latest_prices` (`2.3_daily_prices.py`, lines
100-110): `for attempt in range(3)` — an attempt that returns (even an
empty frame) breaks; an attempt that raises logs, sleeps 10 seconds and
retries.  `dfPrev` is whatever the name `df` was bound to before the loop
(the previous batch's frame, or nothing on the first batch); when all
attempts raise, `df` keeps that binding. -/
def retry_fetch {α : Type} (dfPrev : Option α) : List (Option α) → Option α
  | [] => dfPrev
  | a :: rest =>
      match a with
      | some df => some df
      | Option.none => retry_fetch dfPrev rest

/-- How many download attempts the loop performs on a given outcome
sequence: it stops at the first attempt that returns. -/
def attempts_made {α : Type} : List (Option α) → ℕ
  | [] => 0
  | some _ :: _ => 1
  | Option.none :: rest => 1 + attempts_made rest

/-- What happens to the batch after the retry loop: the code dereferences
`df` unconditionally (line 122 onward).  If `df` was never bound the
dereference raises `NameError` and the run aborts; otherwise the bound
frame — stale if every attempt of this batch failed — is processed. -/
def run_batch_fetch {α : Type} (dfPrev : Option α) (attempts : List (Option α)) :
    Except String α :=
  match retry_fetch dfPrev attempts with
  | some df => .ok df
  | Option.none => .error "NameError"

/-- Specification-side description of the partition: the indices of the
incoming records (numbered from `i`) whose branch decision against the
snapshot is `o`. -/
def mhClassified (existing : String → Option HolderRow) (batch : List HolderData)
    (i : ℕ) (o : Outcome) : List ℕ :=
  ((batch.enumFrom i).filter (fun p => decide (holderOutcome existing p.2 = o))).map Prod.fst

/-- Specification-side description of a dict lookup in
`get_existing_major_holders`: the last stored row of this company and date
carrying the key. -/
def winner (rows : List HolderRow) (cid d : ℕ) (k : String) : Option HolderRow :=
  ((rows.filter (fun h => h.company_id == cid && h.date == d)).filter
    (fun h => rowKey h == k)).getLast?

/-! ### Sample data used by counterexamples and witnesses -/

/-- A company used in concrete scenarios. -/
def sampleCompany : CompanyInfo :=
  { id := 7, name := "TCS", nse_code := some "TCS", bse_code := Option.none }

/-- A stored holder row: LIC holds 500 shares (10 percent). -/
def c5old : HolderRow :=
  { id := 1, company_id := 7, company_code := "TCS", company_name := "TCS",
    date := 5, holder_name := "LIC", holder_type := "institution",
    shares_held := .nnum 500, percentage_held := .nnum 10, value := .nnone,
    currency := some "INR", last_modified := some 4 }

/-- An incoming record for the same holder: shares_held is null, the
percentage changed to 20. -/
def c5inc : HolderData :=
  { holder_name := "LIC", holder_type := "institution",
    shares_held := .nnone, percentage_held := .nnum 20, value := .nnone,
    currency := some "INR" }

/-- An incoming holder record with percentage 1. -/
def c3hd1 : HolderData :=
  { holder_name := "Promoters", holder_type := "promoter",
    shares_held := .nnone, percentage_held := .nnum 1, value := .nnone,
    currency := some "INR" }

/-- The same natural key as `c3hd1` but percentage 2. -/
def c3hd2 : HolderData :=
  { c3hd1 with percentage_held := .nnum 2 }

/-- A price object with close 1 for key ("TCS", day 3). -/
def c6p1 : Price :=
  { company_id := 7, company_code := "TCS", company_name := "TCS", date := 3,
    open_ := Option.none, high := Option.none, low := Option.none, close := some 1,
    volume := Option.none, adj_close := Option.none, last_modified := some 9 }

/-- The same key as `c6p1` but close 2. -/
def c6p2 : Price :=
  { c6p1 with close := some 2 }

/-- A corporate-action row. -/
def c7row : CARow :=
  { company_code := "TCS", date := 3, action_type := "dividend",
    details := "10.0 dividend", last_modified := 3 }

/-- A fetched dataframe row with full OHLCV data and a NaN adjusted close. -/
def c9row : FetchedRow :=
  { open_ := .rnum 100, high := .rnum 101, low := .rnum 99, close := .rnum 100,
    volume := .wrapped (.rnum 5000), adj_close := .rnan }

/-- A fetched dataframe row whose OHLCV values are all missing. -/
def c10row : FetchedRow :=
  { open_ := .rnone, high := .rnan, low := .wrapped .rnan, close := .rnone,
    volume := .rnan, adj_close := .rnum 3 }

/-- A financial-statement record whose only tracked value is the revenue. -/
def finStmtWith (v : NumVal) : FinStmtData :=
  { total_revenue := v, gross_profit := .nnone, operating_income := .nnone,
    net_income := .nnone, eps := .nnone, total_assets := .nnone,
    total_liabilities := .nnone, total_equity := .nnone,
    cash_and_equivalents := .nnone, total_debt := .nnone,
    operating_cash_flow := .nnone, financing_cash_flow := .nnone,
    free_cash_flow := .nnone }

/-- A holder record with the given name, type, percentage and currency. -/
def holderWith (n t : String) (pct : NumVal) (c : Option String) : HolderData :=
  { holder_name := n, holder_type := t, shares_held := .nnone,
    percentage_held := pct, value := .nnone, currency := c }

/-! ### Theorems -/

/-- C4: change detection normalizes tracked numeric fields to a common
decimal representation before comparing (numbers are embedded as exact
rationals, which is what Decimal equality compares): records whose tracked
field agrees as a decimal are unchanged, records whose tracked field
differs as a decimal are changed, and a None field against a 0 field
counts as changed — in both `compare_financial_statements` and
`compare_major_holders`. -/
theorem C4_change_detection :
    (∀ a b : ℚ, compare_financial_statements (finStmtWith (.nnum a)) (finStmtWith (.nnum b)) =
      decide (a ≠ b)) ∧
    (compare_financial_statements (finStmtWith .nnone) (finStmtWith (.nnum 0)) = true) ∧
    (∀ (n t : String) (c : Option String) (a b : ℚ),
      compare_major_holders (holderWith n t (.nnum a) c) (holderWith n t (.nnum b) c) =
        decide (a ≠ b)) ∧
    (∀ (n t : String) (c : Option String),
      compare_major_holders (holderWith n t .nnone c) (holderWith n t (.nnum 0) c) = true) := by
  refine ⟨?_, by decide, ?_, ?_⟩
  · intro a b
    by_cases h : a = b <;>
      simp [compare_financial_statements, finStmtWith, to_dec, decNe, h]
  · intro n t c a b
    by_cases h : a = b <;>
      simp [compare_major_holders, holderWith, to_dec, decNe, h]
  · intro n t c
    simp [compare_major_holders, holderWith, to_dec, decNe]

/-- C5 counterexample: the update branch of `insert_major_holders` writes
every incoming field, nulls included.  With a stored row holding
shares_held = 500 and an incoming record with shares_held = null and a
changed percentage, the emitted update overwrites shares_held with null
instead of preserving 500. -/
theorem C5_counterexample :
    c5old.shares_held = NumVal.nnum 500 ∧
    c5inc.shares_held = NumVal.nnone ∧
    (insert_major_holders [c5old] sampleCompany [c5inc] 5).updated_count = 1 ∧
    ((insert_major_holders [c5old] sampleCompany [c5inc] 5).storage.map
      (fun h => h.shares_held)) = [NumVal.nnone] := by
  decide

/-- C5 (amended): the companies importer's update branch
(`import_companies_from_csv`) never lets an incoming null overwrite an
existing value — a field is written only when the incoming value is
non-null; the major-holders update branch, by contrast, writes every
incoming field including nulls, so there an incoming null does overwrite
an existing non-null value. -/
theorem C5_null_policy :
    (∀ e i : CompanyRow, i.name = .vnone → (update_existing_company e i).name = e.name) ∧
    (∀ e i : CompanyRow, i.nse_code = .vnone →
      (update_existing_company e i).nse_code = e.nse_code) ∧
    (∀ e i : CompanyRow, i.bse_code = .vnone →
      (update_existing_company e i).bse_code = e.bse_code) ∧
    (∀ e i : CompanyRow, i.industry = .vnone →
      (update_existing_company e i).industry = e.industry) ∧
    (∀ e i : CompanyRow, i.name ≠ .vnone → (update_existing_company e i).name = i.name) ∧
    (∀ (r : HolderRow) (hd : HolderData) (d : ℕ),
      (applyHolderUpdate r hd d).shares_held = hd.shares_held ∧
      (applyHolderUpdate r hd d).percentage_held = hd.percentage_held ∧
      (applyHolderUpdate r hd d).value = hd.value ∧
      (applyHolderUpdate r hd d).currency = hd.currency) := by
  refine ⟨?_, ?_, ?_, ?_, ?_, fun r hd d => ⟨rfl, rfl, rfl, rfl⟩⟩ <;> intro e i h <;>
    simp [update_existing_company, h]

/-- C5 witness: the amended policy at concrete records — an all-null
incoming record leaves the existing company row untouched. -/
theorem C5_null_policy_witness :
    (update_existing_company
      { name := .vstr "TCS", nse_code := .vstr "TCS", bse_code := .vnone,
        industry := .vstr "IT" }
      { name := .vnone, nse_code := .vnone, bse_code := .vnone, industry := .vnone }).name =
      Value.vstr "TCS" :=
  C5_null_policy.1 _ _ rfl

/-- C8: the retry loop makes at most three download attempts and stops at
the first attempt that returns; but after three failed attempts the
Python name `df` is simply left with its previous binding — on the first
batch the subsequent dereference raises NameError (aborting the run, not
skipping the batch), and on a later batch the previous batch's stale
frame is silently processed. -/
theorem C8_retry_exhaustion :
    (∀ (α : Type) (a b c : Option α), attempts_made [a, b, c] ≤ 3) ∧
    (∀ (α : Type) (df : α) (prev : Option α) (rest : List (Option α)),
      retry_fetch prev (some df :: rest) = some df ∧
      attempts_made (some df :: rest) = 1) ∧
    (∀ α : Type, run_batch_fetch (Option.none : Option α)
      [Option.none, Option.none, Option.none] = .error "NameError") ∧
    (∀ (α : Type) (dfStale : α),
      run_batch_fetch (some dfStale) [Option.none, Option.none, Option.none] = .ok dfStale) := by
  refine ⟨?_, ?_, ?_, ?_⟩
  · intro α a b c
    rcases a with _ | a <;> rcases b with _ | b <;> rcases c with _ | c <;>
      simp [attempts_made]
  · intro α df prev rest
    exact ⟨rfl, rfl⟩
  · intro α
    rfl
  · intro α dfStale
    rfl

/-- C9: `fetch_latest_prices` in the daily prices job builds every Price
object with `last_modified` unset, so rows written by a successful batch
carry a NULL stamp instead of the run's logical date; the holders job
does stamp both inserts and updates with the CSV date. -/
theorem C9_last_modified :
    (∀ (cid : ℕ) (cname code : String) (d : ℕ) (r : FetchedRow),
      (build_price cid cname code d r).last_modified = Option.none) ∧
    ((daily_insert_prices [] (build_price_objects 7 "TCS" "TCS" [(3, c9row)]) []).map
      (fun p => p.last_modified)) = [Option.none] ∧
    (∀ (i : ℕ) (company : CompanyInfo) (hd : HolderData) (d : ℕ),
      (newHolderRow i company hd d).last_modified = some d) ∧
    (∀ (r : HolderRow) (hd : HolderData) (d : ℕ),
      (applyHolderUpdate r hd d).last_modified = some d) :=
  ⟨fun _ _ _ _ _ => rfl, by decide, fun _ _ _ _ => rfl, fun _ _ _ => rfl⟩

/-- Helper: removing the elements that fail a predicate leaves exactly the
elements that satisfy it. -/
theorem length_sub_filter_not {α : Type} (p : α → Bool) (l : List α) :
    l.length - (l.filter (fun a => ! p a)).length = (l.filter p).length := by
  induction l with
  | nil => rfl
  | cons a t ih =>
      have hle := List.length_filter_le (fun a => ! p a) t
      by_cases h : p a <;> simp [List.filter_cons, h] <;> omega

/-- C10: a fetched row whose open, high, low, close and volume all
normalize to None under `get_scalar` (which unwraps numeric wrappers and
maps NaN to None) is never turned into an insert — the price-object list
is exactly the built rows filtered by the at-least-one-field guard. -/
theorem C10_all_null_rows_never_inserted :
    (∀ (cid : ℕ) (cname code : String) (rows : List (ℕ × FetchedRow)),
      build_price_objects cid cname code rows =
        (rows.map (fun dr => build_price cid cname code dr.1 dr.2)).filter keep_price) ∧
    (∀ (cid : ℕ) (cname code : String) (d : ℕ) (r : FetchedRow),
      keep_price (build_price cid cname code d r) = false ↔
        (get_scalar r.open_ = Option.none ∧ get_scalar r.high = Option.none ∧
         get_scalar r.low = Option.none ∧ get_scalar r.close = Option.none ∧
         get_scalar r.volume = Option.none)) ∧
    (∀ v : RawVal, get_scalar (.wrapped v) = get_scalar v) ∧
    (get_scalar .rnan = Option.none) ∧
    (keep_price (build_price 7 "TCS" "TCS" 3 c10row) = false ∧
     build_price_objects 7 "TCS" "TCS" [(3, c10row)] = []) := by
  refine ⟨?_, ?_, fun v => rfl, rfl, by decide⟩
  · intro cid cname code rows
    induction rows with
    | nil => rfl
    | cons dr rest ih =>
        obtain ⟨d, r⟩ := dr
        by_cases h : keep_price (build_price cid cname code d r) <;>
          simp [build_price_objects, List.filter_cons, h, ih]
  · intro cid cname code d r
    cases ho : get_scalar r.open_ <;> cases hh : get_scalar r.high <;>
      cases hl : get_scalar r.low <;> cases hc : get_scalar r.close <;>
        cases hv : get_scalar r.volume <;>
          simp [keep_price, build_price, ho, hh, hl, hc, hv]

/-- C7 counterexample: a storage failure during the corporate-actions
bulk write is rolled back and counted, but then re-raised — the result is
an error that propagates and aborts the run, not a continuation. -/
theorem C7_counterexample :
    bulk_ops_corporate_actions [] [c7row] 0 true = .error ([], 1) ∧
    (bulk_ops_corporate_actions [] [c7row] 0 true).isOk = false :=
  ⟨rfl, rfl⟩

/-- C7 (amended): a storage failure is caught at batch granularity with an
atomic rollback everywhere; the major-holders run continues with the next
company (a failing batch contributes nothing), while the corporate-actions
bulk writer re-raises after rollback and counting, aborting its run. -/
theorem C7_batch_failure :
    (∀ (storage : List HolderRow) (d : ℕ) (c : CompanyInfo) (batch : List HolderData)
       (rest : List (CompanyInfo × List HolderData × Bool)),
      process_companies storage d ((c, batch, true) :: rest) =
        process_companies storage d rest) ∧
    (∀ (storage : List HolderRow) (c : CompanyInfo) (batch : List HolderData) (d : ℕ),
      process_company_major_holders storage c batch d true = (storage, 0, 0)) ∧
    (∀ (storage : List HolderRow) (c : CompanyInfo) (batch : List HolderData) (d : ℕ),
      process_company_major_holders storage c batch d false =
        ((insert_major_holders storage c batch d).storage,
         (insert_major_holders storage c batch d).inserted_count,
         (insert_major_holders storage c batch d).updated_count)) ∧
    (∀ (store : List CARow) (a : CARow) (l : List CARow) (e : ℕ),
      bulk_ops_corporate_actions store (a :: l) e true = .error (store, e + 1)) := by
  refine ⟨?_, fun _ _ _ _ => rfl, fun _ _ _ _ => rfl, ?_⟩
  · intro storage d c batch rest
    simp [process_companies, process_company_major_holders, insert_major_holders_f]
  · intro store a l e
    simp [bulk_ops_corporate_actions]

/-- C6 counterexample: two incoming records sharing one key, against empty
storage, in the onetime price importer — the result does contain exactly
one entry for the key carrying the later value, but the duplicate counter
reports 0, not 1 (it counts only records whose key already existed in
storage). -/
theorem C6_counterexample :
    (store_company_prices [] [c6p1, c6p2]).dup_count = 0 ∧
    (store_company_prices [] [c6p1, c6p2]).new_count = 2 ∧
    (store_company_prices [] [c6p1, c6p2]).store = [c6p2] := by
  decide

/-- C6 (amended): when two incoming records share a key, the later one in
iteration order wins through the key-conflict upsert (the result holds
exactly one entry for the key, with the later record's values), but the
earlier record is not reported through the duplicate counter:
`duplicate_price_records` counts exactly the incoming records whose key
already existed in storage before the batch, so an intra-batch duplicate
against empty storage counts 0.  The daily prices job has no conflict
handling at all and bulk-inserts both duplicates. -/
theorem C6_duplicate_keys :
    (∀ (store objs : List Price),
      (store_company_prices store objs).dup_count =
        (objs.filter (fun p => (store.map price_key).contains (price_key p))).length) ∧
    (∀ p q : Price, price_key p = price_key q → p.company_id = q.company_id →
      (store_company_prices [] [p, q]).store = [q] ∧
      (store_company_prices [] [p, q]).dup_count = 0) ∧
    (∀ p q : Price, daily_insert_prices [] [p, q] [] = [p, q]) := by
  refine ⟨?_, ?_, fun p q => rfl⟩
  · intro store objs
    simpa [store_company_prices, new_prices] using
      length_sub_filter_not (fun p => (store.map price_key).contains (price_key p)) objs
  · intro p q hk hc
    have hfields : p.company_code = q.company_code ∧ p.date = q.date := by
      simpa [price_key, Prod.ext_iff] using hk
    have hset : upsert_set_fields p q = q := by
      cases p; cases q
      simp_all [upsert_set_fields]
    constructor
    · simp [store_company_prices, new_prices, upsert_price, hset, hc, hfields.2]
    · rfl

/-- Helper: a CSV row is rejected by the daily company import exactly when
both cleaned key codes are None. -/
theorem import_row_fate_rejected_iff (nse bse : Value) (exN exB : List String) :
    import_row_fate nse bse exN exB = .rejected ↔
      (clean_code nse = Option.none ∧ clean_code bse = Option.none) := by
  by_cases h : clean_code nse = Option.none ∧ clean_code bse = Option.none
  · simp [import_row_fate, h]
  · by_cases h1 : truthyIn (clean_code nse) exN <;>
      by_cases h2 : truthyIn (clean_code bse) exB <;>
        simp [import_row_fate, h, h1, h2]

/-- C2 counterexample: a CSV row whose NSE key field is None (invalid per
`is_valid_code`) but whose BSE key field is a valid code is not rejected —
it is classified as a new company and imported. -/
theorem C2_counterexample :
    is_valid_code .vnone = false ∧
    import_row_fate .vnone (.vstr "500325") [] [] = .isNew := by
  decide

/-- C2 (amended): `is_valid_code` returns false exactly for None, float
NaN, blank/whitespace-only strings and the case-insensitive string "nan",
and true for every other non-blank string; a CSV record is counted as
rejected precisely when all of its key fields are invalid (for company
rows, when both cleaned codes are None) — a record with at least one
valid key field proceeds. -/
theorem C2_key_validity :
    (is_valid_code .vnone = false ∧ is_valid_code .vnan = false) ∧
    (∀ s : String, pyStrip s = "" → is_valid_code (.vstr s) = false) ∧
    (∀ s : String, pyLower (pyStrip s) = "nan" → is_valid_code (.vstr s) = false) ∧
    (∀ s : String, pyStrip s ≠ "" → pyLower (pyStrip s) ≠ "nan" →
      is_valid_code (.vstr s) = true) ∧
    (∀ (nse bse : Value) (exN exB : List String),
      import_row_fate nse bse exN exB = .rejected ↔
        (clean_code nse = Option.none ∧ clean_code bse = Option.none)) := by
  refine ⟨by decide, ?_, ?_, ?_, ?_⟩
  · intro s h
    simp [is_valid_code, pyStr, h]
  · intro s h
    simp [is_valid_code, pyStr, h]
  · intro s h1 h2
    simp [is_valid_code, pyStr, h1, h2]
  · intro nse bse exN exB
    exact import_row_fate_rejected_iff nse bse exN exB

/-- C2 witness: the amended key-validity behavior at concrete values. -/
theorem C2_key_validity_witness :
    is_valid_code (.vstr "   ") = false ∧
    is_valid_code (.vstr "NaN") = false ∧
    is_valid_code (.vstr "TCS") = true ∧
    import_row_fate (.vstr " nan ") (.vstr "") ["TCS"] [] = .rejected :=
  ⟨C2_key_validity.2.1 _ (by decide),
   C2_key_validity.2.2.1 _ (by decide),
   C2_key_validity.2.2.2.1 _ (by decide) (by decide),
   (C2_key_validity.2.2.2.2 _ _ _ _).mpr ⟨by decide, by decide⟩⟩

/-- Helper: unfolding the classification of a batch head. -/
theorem mhClassified_cons (ex : String → Option HolderRow) (hd : HolderData)
    (rest : List HolderData) (i : ℕ) (o : Outcome) :
    mhClassified ex (hd :: rest) i o =
      (if holderOutcome ex hd = o then [i] else []) ++ mhClassified ex rest (i + 1) o := by
  by_cases h : holderOutcome ex hd = o <;>
    simp [mhClassified, List.enumFrom, List.filter_cons, h]

/-- Helper: the loop of `insert_major_holders` produces exactly the
branch classification of each incoming record against the initial
existing-data snapshot — the partition lists and both counters are pure
functions of the snapshot and the batch. -/
theorem mhLoop_closed (ex : String → Option HolderRow) (company : CompanyInfo) (d : ℕ) :
    ∀ (batch : List HolderData) (i : ℕ) (s : MHState),
      (mhLoop ex company d batch i s).inserts =
        s.inserts ++ mhClassified ex batch i .insert ∧
      (mhLoop ex company d batch i s).updates =
        s.updates ++ mhClassified ex batch i .update ∧
      (mhLoop ex company d batch i s).unchanged =
        s.unchanged ++ mhClassified ex batch i .unchanged ∧
      (mhLoop ex company d batch i s).inserted_count =
        s.inserted_count + (mhClassified ex batch i .insert).length ∧
      (mhLoop ex company d batch i s).updated_count =
        s.updated_count + (mhClassified ex batch i .update).length := by
  intro batch
  induction batch with
  | nil =>
      intro i s
      simp [mhLoop, mhClassified, List.enumFrom]
  | cons hd rest ih =>
      intro i s
      obtain ⟨h1, h2, h3, h4, h5⟩ := ih (i + 1) (mhStep ex company d s i hd)
      have hloop : mhLoop ex company d (hd :: rest) i s =
          mhLoop ex company d rest (i + 1) (mhStep ex company d s i hd) := rfl
      rcases hx : ex (dataKey hd) with _ | ed
      · have ho : holderOutcome ex hd = .insert := by simp [holderOutcome, hx]
        have hstep : mhStep ex company d s i hd =
            { s with storage := s.storage ++ [newHolderRow s.nextId company hd d],
                     inserted_count := s.inserted_count + 1,
                     nextId := s.nextId + 1,
                     inserts := s.inserts ++ [i] } := by
          simp [mhStep, hx]
        rw [hstep] at h1 h2 h3 h4 h5
        rw [hloop, hstep]
        refine ⟨?_, ?_, ?_, ?_, ?_⟩ <;>
          simp [h1, h2, h3, h4, h5, mhClassified_cons, ho, List.append_assoc] <;> omega
      · by_cases hc : compare_major_holders hd (rowData ed)
        · have ho : holderOutcome ex hd = .update := by simp [holderOutcome, hx, hc]
          have hstep : mhStep ex company d s i hd =
              { s with storage := updateById s.storage ed.id hd d,
                       updated_count := s.updated_count + 1,
                       updates := s.updates ++ [i] } := by
            simp [mhStep, hx, hc]
          rw [hstep] at h1 h2 h3 h4 h5
          rw [hloop, hstep]
          refine ⟨?_, ?_, ?_, ?_, ?_⟩ <;>
            simp [h1, h2, h3, h4, h5, mhClassified_cons, ho, List.append_assoc] <;> omega
        · have ho : holderOutcome ex hd = .unchanged := by simp [holderOutcome, hx, hc]
          have hstep : mhStep ex company d s i hd =
              { s with unchanged := s.unchanged ++ [i] } := by
            simp [mhStep, hx, hc]
          rw [hstep] at h1 h2 h3 h4 h5
          rw [hloop, hstep]
          refine ⟨?_, ?_, ?_, ?_, ?_⟩ <;>
            simp [h1, h2, h3, h4, h5, mhClassified_cons, ho, List.append_assoc] <;> omega

/-- Helper: across the three outcome classes, every batch index in range
is classified exactly once and indices out of range never appear. -/
theorem mhClassified_count (ex : String → Option HolderRow) (batch : List HolderData) :
    ∀ (i j : ℕ),
      (mhClassified ex batch i .insert).count j +
        (mhClassified ex batch i .update).count j +
        (mhClassified ex batch i .unchanged).count j =
        if i ≤ j ∧ j < i + batch.length then 1 else 0 := by
  induction batch with
  | nil =>
      intro i j
      simp only [mhClassified, List.enumFrom, List.filter_nil, List.map_nil,
        List.count_nil, List.length_nil, Nat.add_zero]
      split_ifs with h
      · omega
      · rfl
  | cons hd rest ih =>
      intro i j
      have hih := ih (i + 1) j
      rw [mhClassified_cons, mhClassified_cons, mhClassified_cons]
      rcases ho : holderOutcome ex hd with _ | _ | _ <;>
        simp [ho, List.count_append, List.count_cons, List.count_nil, List.length_cons,
          beq_iff_eq] <;>
        split_ifs at hih ⊢ <;> omega

/-- C1: in the holders reconciliation every incoming record is placed in
exactly one of {inserts, updates, unchanged} — the partition lists are
precisely the branch classification of each record and every in-range
index is counted exactly once across the three lists (never dropped,
never counted twice); the branch decision is a pure function of the
existing-data snapshot and the record (no further I/O); and a CSV record
whose natural key is invalid (all key fields invalid) is placed in
rejected. -/
theorem C1_partition :
    (∀ (storage : List HolderRow) (company : CompanyInfo) (batch : List HolderData) (d : ℕ),
      (insert_major_holders storage company batch d).inserts =
        mhClassified (get_existing storage company.id d) batch 0 .insert ∧
      (insert_major_holders storage company batch d).updates =
        mhClassified (get_existing storage company.id d) batch 0 .update ∧
      (insert_major_holders storage company batch d).unchanged =
        mhClassified (get_existing storage company.id d) batch 0 .unchanged) ∧
    (∀ (storage : List HolderRow) (company : CompanyInfo) (batch : List HolderData)
       (d : ℕ) (j : ℕ),
      ((insert_major_holders storage company batch d).inserts ++
       (insert_major_holders storage company batch d).updates ++
       (insert_major_holders storage company batch d).unchanged).count j =
        if j < batch.length then 1 else 0) ∧
    (∀ (nse bse : Value) (exN exB : List String),
      import_row_fate nse bse exN exB = .rejected ↔
        (clean_code nse = Option.none ∧ clean_code bse = Option.none)) := by
  refine ⟨?_, ?_, import_row_fate_rejected_iff⟩
  · intro storage company batch d
    obtain ⟨h1, h2, h3, _, _⟩ :=
      mhLoop_closed (get_existing storage company.id d) company d batch 0
        { storage := storage, inserted_count := 0, updated_count := 0,
          nextId := max_id storage + 1, inserts := [], updates := [], unchanged := [] }
    exact ⟨by simpa [insert_major_holders] using h1,
           by simpa [insert_major_holders] using h2,
           by simpa [insert_major_holders] using h3⟩
  · intro storage company batch d j
    obtain ⟨h1, h2, h3, _, _⟩ :=
      mhLoop_closed (get_existing storage company.id d) company d batch 0
        { storage := storage, inserted_count := 0, updated_count := 0,
          nextId := max_id storage + 1, inserts := [], updates := [], unchanged := [] }
    have hcount := mhClassified_count (get_existing storage company.id d) batch 0 j
    have e1 : (insert_major_holders storage company batch d).inserts =
        mhClassified (get_existing storage company.id d) batch 0 .insert := by
      simpa [insert_major_holders] using h1
    have e2 : (insert_major_holders storage company batch d).updates =
        mhClassified (get_existing storage company.id d) batch 0 .update := by
      simpa [insert_major_holders] using h2
    have e3 : (insert_major_holders storage company batch d).unchanged =
        mhClassified (get_existing storage company.id d) batch 0 .unchanged := by
      simpa [insert_major_holders] using h3
    rw [e1, e2, e3, List.count_append, List.count_append]
    simpa using hcount

/-- Helper: applying the dict-building fold and then looking up a key
yields the last matching row, falling back to the initial map. -/
theorem dict_fold_apply (l : List HolderRow) :
    ∀ (m : String → Option HolderRow) (k : String),
      (l.foldl (fun acc h => fun x => if x = rowKey h then some h else acc x) m) k =
        ((l.filter (fun h => rowKey h == k)).getLast?).or (m k) := by
  induction l with
  | nil =>
      intro m k
      rfl
  | cons h t ih =>
      intro m k
      by_cases hk : rowKey h = k
      · have hfc : (List.filter (fun h => rowKey h == k) (h :: t)) =
            [h] ++ List.filter (fun h => rowKey h == k) t := by
          simp [List.filter_cons, hk]
        calc (List.foldl (fun acc h => fun x => if x = rowKey h then some h else acc x)
                (fun x => if x = rowKey h then some h else m x) t) k
            = ((t.filter (fun h => rowKey h == k)).getLast?).or
                (if k = rowKey h then some h else m k) := ih _ k
          _ = ((t.filter (fun h => rowKey h == k)).getLast?).or (some h) := by
              simp [hk.symm]
          _ = (((h :: t).filter (fun h => rowKey h == k)).getLast?).or (m k) := by
              rw [hfc, List.getLast?_append]
              simp [Option.or_assoc]
      · have hfc : (List.filter (fun h => rowKey h == k) (h :: t)) =
            List.filter (fun h => rowKey h == k) t := by
          simp [List.filter_cons, hk]
        calc (List.foldl (fun acc h => fun x => if x = rowKey h then some h else acc x)
                (fun x => if x = rowKey h then some h else m x) t) k
            = ((t.filter (fun h => rowKey h == k)).getLast?).or
                (if k = rowKey h then some h else m k) := ih _ k
          _ = (((h :: t).filter (fun h => rowKey h == k)).getLast?).or (m k) := by
              rw [hfc]
              have : ¬ k = rowKey h := fun hkk => hk hkk.symm
              simp [this]

/-- Helper: the dict built by `get_existing_major_holders` answers every
lookup with the last stored row of that company/date carrying the key. -/
theorem get_existing_eq_winner (rows : List HolderRow) (cid d : ℕ) (k : String) :
    get_existing rows cid d k = winner rows cid d k := by
  unfold get_existing winner
  rw [dict_fold_apply]
  exact Option.or_none

/-- Helper: appending one row moves the winner to it exactly when the new
row matches the company/date predicate and the key. -/
theorem winner_append (rows : List HolderRow) (r : HolderRow) (cid d : ℕ) (k : String) :
    winner (rows ++ [r]) cid d k =
      if ((r.company_id == cid && r.date == d) && (rowKey r == k)) = true then some r
      else winner rows cid d k := by
  unfold winner
  rw [List.filter_append, List.filter_append]
  by_cases hp : (r.company_id == cid && r.date == d) = true
  · by_cases hk : (rowKey r == k) = true
    · simp [List.filter_cons, hp, hk, List.getLast?_append]
    · simp [List.filter_cons, hp, hk]
  · simp [List.filter_cons, hp]

/-- Helper: a winner is a stored row matching the predicate and the key. -/
theorem winner_mem {rows : List HolderRow} {cid d : ℕ} {k : String} {r : HolderRow}
    (h : winner rows cid d k = some r) :
    r ∈ rows ∧ (r.company_id == cid && r.date == d) = true ∧ rowKey r = k := by
  have hm := List.mem_of_mem_getLast? h
  have h1 := List.mem_filter.mp hm
  have h2 := List.mem_filter.mp h1.1
  exact ⟨h2.1, h2.2, by simpa using h1.2⟩

/-- Helper: two stored rows with the same primary key are the same row
when the primary keys are unique. -/
theorem eq_of_id_nodup {rows : List HolderRow} (hnodup : (rows.map HolderRow.id).Nodup)
    {r s : HolderRow} (hr : r ∈ rows) (hs : s ∈ rows) (hid : r.id = s.id) : r = s :=
  List.inj_on_of_nodup_map hnodup hr hs hid

/-- Helper: an update by primary key does not change the stored primary
keys. -/
theorem updateById_map_id (rows : List HolderRow) (i : ℕ) (hd : HolderData) (d : ℕ) :
    (updateById rows i hd d).map HolderRow.id = rows.map HolderRow.id := by
  unfold updateById
  rw [List.map_map]
  refine List.map_congr_left ?_
  intro r _
  by_cases h : r.id = i <;> simp [h, applyHolderUpdate]

/-- Helper: filtering by company/date and key commutes with a row map that
preserves both predicates. -/
theorem filter_filter_map_preserve (g : HolderRow → HolderRow) (cid d : ℕ) (k : String) :
    ∀ rows : List HolderRow,
      (∀ r ∈ rows, ((g r).company_id == cid && (g r).date == d) =
        (r.company_id == cid && r.date == d)) →
      (∀ r ∈ rows, (rowKey (g r) == k) = (rowKey r == k)) →
      ((rows.map g).filter (fun h => h.company_id == cid && h.date == d)).filter
          (fun h => rowKey h == k) =
        ((rows.filter (fun h => h.company_id == cid && h.date == d)).filter
          (fun h => rowKey h == k)).map g := by
  intro rows
  induction rows with
  | nil =>
      intro _ _
      rfl
  | cons r t ih =>
      intro hpred hkey
      have hp := hpred r (List.mem_cons_self r t)
      have hk := hkey r (List.mem_cons_self r t)
      have iht := ih (fun x hx => hpred x (List.mem_cons_of_mem r hx))
        (fun x hx => hkey x (List.mem_cons_of_mem r hx))
      by_cases h1 : (r.company_id == cid && r.date == d) = true
      · by_cases h2 : (rowKey r == k) = true
        · simp [List.filter_cons, h1, h2, hp, hk, iht]
        · simp [List.filter_cons, h1, h2, hp, hk, iht]
      · simp [List.filter_cons, h1, hp, iht]

/-- Helper: an update targeting a primary key whose unique row does not
carry the lookup key, with an incoming key also different from the lookup
key, leaves the winner for that key unchanged. -/
theorem winner_updateById_untouched (rows : List HolderRow) (i : ℕ) (hd : HolderData)
    (du cid d : ℕ) (k : String)
    (hrows : ∀ r ∈ rows, r.id = i → rowKey r ≠ k)
    (hkey : dataKey hd ≠ k) :
    winner (updateById rows i hd du) cid d k = winner rows cid d k := by
  unfold winner updateById
  rw [filter_filter_map_preserve]
  · have : ∀ r ∈ ((rows.filter (fun h => h.company_id == cid && h.date == d)).filter
        (fun h => rowKey h == k)),
        (if r.id = i then applyHolderUpdate r hd du else r) = r := by
      intro r hr
      have h1 := List.mem_filter.mp hr
      have h2 := List.mem_filter.mp h1.1
      have hkr : rowKey r = k := by simpa using h1.2
      have : r.id ≠ i := by
        intro hri
        exact hrows r h2.1 hri hkr
      simp [this]
    rw [List.map_congr_left this]
    simp
  · intro r _
    by_cases h : r.id = i <;> simp [h, applyHolderUpdate]
  · intro r hr
    by_cases h : r.id = i
    · have hne := hrows r hr h
      have h1 : (rowKey (applyHolderUpdate r hd du) == k) = false := by
        have : rowKey (applyHolderUpdate r hd du) = dataKey hd := rfl
        simp [this, hkey]
      have h2 : (rowKey r == k) = false := by simp [hne]
      simp [h, h1, h2]
    · simp [h]

/-- Helper: an update targeting the winner row for a key, writing a record
with that same key, makes the updated row the new winner. -/
theorem winner_updateById_target (rows : List HolderRow) (ed : HolderRow)
    (hd : HolderData) (du cid d : ℕ) (k : String)
    (hw : winner rows cid d k = some ed)
    (hnodup : (rows.map HolderRow.id).Nodup)
    (hkey : dataKey hd = k) :
    winner (updateById rows ed.id hd du) cid d k =
      some (applyHolderUpdate ed hd du) := by
  obtain ⟨hmem, hpred, hkeyed⟩ := winner_mem hw
  unfold winner updateById
  rw [filter_filter_map_preserve]
  · rw [List.getLast?_map]
    have : ((rows.filter (fun h => h.company_id == cid && h.date == d)).filter
        (fun h => rowKey h == k)).getLast? = some ed := hw
    rw [this]
    simp
  · intro r _
    by_cases h : r.id = ed.id <;> simp [h, applyHolderUpdate]
  · intro r hr
    by_cases h : r.id = ed.id
    · have hre : r = ed := eq_of_id_nodup hnodup hr hmem h
      subst hre
      have h1 : rowKey (applyHolderUpdate r hd du) = dataKey hd := rfl
      simp [h, h1, hkey, hkeyed]
    · simp [h]

/-- Helper: every stored primary key is bounded by `max_id`. -/
theorem le_max_id {rows : List HolderRow} {r : HolderRow} (h : r ∈ rows) :
    r.id ≤ max_id rows := by
  have haux : ∀ (l : List HolderRow) (a : ℕ),
      a ≤ l.foldl (fun m x => max m x.id) a ∧
      (∀ x ∈ l, x.id ≤ l.foldl (fun m x => max m x.id) a) := by
    intro l
    induction l with
    | nil =>
        intro a
        exact ⟨le_refl a, by intro x hx; cases hx⟩
    | cons y t ih =>
        intro a
        refine ⟨?_, ?_⟩
        · exact le_trans (le_max_left a y.id) (ih (max a y.id)).1
        · intro x hx
          rcases List.mem_cons.mp hx with hxy | hxt
          · subst hxy
            exact le_trans (le_max_right a x.id) (ih (max a x.id)).1
          · exact (ih (max a y.id)).2 x hxt
  exact (haux rows 0).2 r h

/-- Helper: the key of a freshly inserted row is the incoming record's
key. -/
theorem rowKey_newHolderRow (i : ℕ) (c : CompanyInfo) (hd : HolderData) (d : ℕ) :
    rowKey (newHolderRow i c hd d) = dataKey hd := rfl

/-- Helper: the key of an updated row is the incoming record's key. -/
theorem rowKey_applyHolderUpdate (r : HolderRow) (hd : HolderData) (d : ℕ) :
    rowKey (applyHolderUpdate r hd d) = dataKey hd := rfl

/-- Helper: the comparison data of a freshly inserted row is the incoming
record. -/
theorem rowData_newHolderRow (i : ℕ) (c : CompanyInfo) (hd : HolderData) (d : ℕ) :
    rowData (newHolderRow i c hd d) = hd := rfl

/-- Helper: the comparison data of an updated row is the incoming
record. -/
theorem rowData_applyHolderUpdate (r : HolderRow) (hd : HolderData) (d : ℕ) :
    rowData (applyHolderUpdate r hd d) = hd := rfl

/-- The invariant carried through the first reconciliation pass: stored
primary keys stay unique and below the insert counter, every processed
record's key has a winner row that compares unchanged against it, and the
winners of the still-unprocessed keys are untouched. -/
def PassInv (storage0 : List HolderRow) (cid d : ℕ)
    (done rest : List HolderData) (s : MHState) : Prop :=
  ((s.storage.map HolderRow.id).Nodup) ∧
  (∀ r ∈ s.storage, r.id < s.nextId) ∧
  (∀ hd ∈ done, ∃ r, winner s.storage cid d (dataKey hd) = some r ∧
    compare_major_holders hd (rowData r) = false) ∧
  (∀ hd ∈ rest, winner s.storage cid d (dataKey hd) = winner storage0 cid d (dataKey hd))

/-- Helper: the loop of `insert_major_holders` preserves `PassInv`: after
running it on the remaining records, every record of the batch compares
unchanged against the winner of its key. -/
theorem mhLoop_inv (company : CompanyInfo) (d : ℕ) (storage0 : List HolderRow)
    (batch : List HolderData)
    (hkeys : (batch.map dataKey).Nodup)
    (hself : ∀ hd ∈ batch, compare_major_holders hd hd = false) :
    ∀ (rest done : List HolderData) (i : ℕ) (s : MHState),
      done ++ rest = batch →
      PassInv storage0 company.id d done rest s →
      PassInv storage0 company.id d batch []
        (mhLoop (get_existing storage0 company.id d) company d rest i s) := by
  intro rest
  induction rest with
  | nil =>
      intro done i s hsplit hinv
      have hdone : done = batch := by simpa using hsplit
      subst hdone
      exact ⟨hinv.1, hinv.2.1, hinv.2.2.1,
        by intro hd h; exact absurd h (List.not_mem_nil hd)⟩
  | cons hd rest' ih =>
      intro done i s hsplit hinv
      obtain ⟨hnodup, hlt, hdone, hrest⟩ := hinv
      have hkeys2 := hkeys
      rw [← hsplit, List.map_append, List.map_cons, List.nodup_append] at hkeys2
      obtain ⟨hnd1, hnd2, hdisj⟩ := hkeys2
      have hhd_notin_done : dataKey hd ∉ done.map dataKey := by
        intro hmem
        exact hdisj hmem (List.mem_cons_self _ _)
      have hhd_notin_rest : dataKey hd ∉ rest'.map dataKey := (List.nodup_cons.mp hnd2).1
      have hhd_mem : hd ∈ batch := by
        rw [← hsplit]
        exact List.mem_append.mpr (Or.inr (List.mem_cons_self _ _))
      have hcur : winner s.storage company.id d (dataKey hd) =
          winner storage0 company.id d (dataKey hd) :=
        hrest hd (List.mem_cons_self _ _)
      have hexk : get_existing storage0 company.id d (dataKey hd) =
          winner storage0 company.id d (dataKey hd) :=
        get_existing_eq_winner storage0 company.id d (dataKey hd)
      have hloop : mhLoop (get_existing storage0 company.id d) company d (hd :: rest') i s =
          mhLoop (get_existing storage0 company.id d) company d rest' (i + 1)
            (mhStep (get_existing storage0 company.id d) company d s i hd) := rfl
      rw [hloop]
      refine ih (done ++ [hd]) (i + 1) _ (by simpa using hsplit) ?_
      rcases hx : get_existing storage0 company.id d (dataKey hd) with _ | ed
      · -- insert branch
        have hstep : mhStep (get_existing storage0 company.id d) company d s i hd =
            { s with storage := s.storage ++ [newHolderRow s.nextId company hd d],
                     inserted_count := s.inserted_count + 1,
                     nextId := s.nextId + 1,
                     inserts := s.inserts ++ [i] } := by
          simp [mhStep, hx]
        rw [hstep]
        refine ⟨?_, ?_, ?_, ?_⟩
        · show ((s.storage ++ [newHolderRow s.nextId company hd d]).map HolderRow.id).Nodup
          rw [List.map_append, List.nodup_append]
          refine ⟨hnodup, by simp, ?_⟩
          intro x hx1 hx2
          obtain ⟨r, hr, hrid⟩ := List.mem_map.mp hx1
          have hxlt := hlt r hr
          simp [newHolderRow] at hx2
          omega
        · intro r hr
          rcases List.mem_append.mp hr with h | h
          · exact Nat.lt_succ_of_lt (hlt r h)
          · simp at h
            subst h
            simp [newHolderRow]
        · intro hp hmem
          rcases List.mem_append.mp hmem with hmem | hmem
          · obtain ⟨r, hwr, hcr⟩ := hdone hp hmem
            refine ⟨r, ?_, hcr⟩
            rw [winner_append]
            have hne : dataKey hd ≠ dataKey hp := by
              intro he
              exact hhd_notin_done (he ▸ List.mem_map_of_mem dataKey hmem)
            have hkf : (rowKey (newHolderRow s.nextId company hd d) == dataKey hp) = false := by
              rw [rowKey_newHolderRow]
              simp [hne]
            simp only [hkf, Bool.and_false, Bool.false_eq_true, if_false]
            exact hwr
          · rw [List.mem_singleton] at hmem
            rw [hmem]
            refine ⟨newHolderRow s.nextId company hd d, ?_, ?_⟩
            · rw [winner_append]
              have hcond : (((newHolderRow s.nextId company hd d).company_id == company.id &&
                  (newHolderRow s.nextId company hd d).date == d) &&
                  (rowKey (newHolderRow s.nextId company hd d) == dataKey hd)) = true := by
                rw [rowKey_newHolderRow]
                simp [newHolderRow]
              rw [if_pos hcond]
            · rw [rowData_newHolderRow]
              exact hself hd hhd_mem
        · intro hf hmem
          rw [winner_append]
          have hne : dataKey hd ≠ dataKey hf := by
            intro he
            exact hhd_notin_rest (he ▸ List.mem_map_of_mem dataKey hmem)
          have hkf : (rowKey (newHolderRow s.nextId company hd d) == dataKey hf) = false := by
            rw [rowKey_newHolderRow]
            simp [hne]
          simp only [hkf, Bool.and_false, Bool.false_eq_true, if_false]
          exact hrest hf (List.mem_cons_of_mem _ hmem)
      · -- a row exists for this key
        have hw : winner s.storage company.id d (dataKey hd) = some ed := by
          rw [hcur, ← hexk]
          exact hx
        obtain ⟨hedmem, hedpred, hedkey⟩ := winner_mem hw
        by_cases hc : compare_major_holders hd (rowData ed)
        · -- update branch
          have hstep : mhStep (get_existing storage0 company.id d) company d s i hd =
              { s with storage := updateById s.storage ed.id hd d,
                       updated_count := s.updated_count + 1,
                       updates := s.updates ++ [i] } := by
            simp [mhStep, hx, hc]
          rw [hstep]
          refine ⟨?_, ?_, ?_, ?_⟩
          · show (((updateById s.storage ed.id hd d).map HolderRow.id)).Nodup
            rw [updateById_map_id]
            exact hnodup
          · intro r hr
            obtain ⟨r0, hr0, hreq⟩ := List.mem_map.mp hr
            have hid : r.id = r0.id := by
              subst hreq
              by_cases h : r0.id = ed.id <;> simp [h, applyHolderUpdate]
            rw [hid]
            exact hlt r0 hr0
          · intro hp hmem
            rcases List.mem_append.mp hmem with hmem | hmem
            · obtain ⟨r, hwr, hcr⟩ := hdone hp hmem
              have hne : dataKey hd ≠ dataKey hp := by
                intro he
                exact hhd_notin_done (he ▸ List.mem_map_of_mem dataKey hmem)
              refine ⟨r, ?_, hcr⟩
              rw [winner_updateById_untouched _ _ _ _ _ _ _ ?_ hne]
              · exact hwr
              · intro x hxmem hxid
                have hxe : x = ed := eq_of_id_nodup hnodup hxmem hedmem hxid
                subst hxe
                rw [hedkey]
                exact hne
            · rw [List.mem_singleton] at hmem
              rw [hmem]
              refine ⟨applyHolderUpdate ed hd d, ?_, ?_⟩
              · exact winner_updateById_target s.storage ed hd d company.id d
                  (dataKey hd) hw hnodup rfl
              · rw [rowData_applyHolderUpdate]
                exact hself hd hhd_mem
          · intro hf hmem
            have hne : dataKey hd ≠ dataKey hf := by
              intro he
              exact hhd_notin_rest (he ▸ List.mem_map_of_mem dataKey hmem)
            rw [winner_updateById_untouched _ _ _ _ _ _ _ ?_ hne]
            · exact hrest hf (List.mem_cons_of_mem _ hmem)
            · intro x hxmem hxid
              have hxe : x = ed := eq_of_id_nodup hnodup hxmem hedmem hxid
              subst hxe
              rw [hedkey]
              exact hne
        · -- unchanged branch
          have hstep : mhStep (get_existing storage0 company.id d) company d s i hd =
              { s with unchanged := s.unchanged ++ [i] } := by
            simp [mhStep, hx, hc]
          rw [hstep]
          refine ⟨hnodup, hlt, ?_, ?_⟩
          · intro hp hmem
            rcases List.mem_append.mp hmem with hmem | hmem
            · exact hdone hp hmem
            · rw [List.mem_singleton] at hmem
              rw [hmem]
              exact ⟨ed, hw, by simpa using hc⟩
          · intro hf hmem
            exact hrest hf (List.mem_cons_of_mem _ hmem)

/-- Helper: when every batch record compares unchanged against the winner
of its key, the reconciliation takes the unchanged branch for every
record and emits zero inserts and zero updates. -/
theorem insert_unchanged_of_inv (storage : List HolderRow) (company : CompanyInfo)
    (batch : List HolderData) (d : ℕ)
    (hall : ∀ hd ∈ batch, ∃ r, winner storage company.id d (dataKey hd) = some r ∧
      compare_major_holders hd (rowData r) = false) :
    (insert_major_holders storage company batch d).inserted_count = 0 ∧
    (insert_major_holders storage company batch d).updated_count = 0 := by
  have hout : ∀ hd ∈ batch,
      holderOutcome (get_existing storage company.id d) hd = .unchanged := by
    intro hd hmem
    obtain ⟨r, hw, hcomp⟩ := hall hd hmem
    simp [holderOutcome, get_existing_eq_winner, hw, hcomp]
  have hnil : ∀ o : Outcome, o ≠ .unchanged →
      mhClassified (get_existing storage company.id d) batch 0 o = [] := by
    intro o hne
    rw [mhClassified]
    have hfil : (batch.enumFrom 0).filter
        (fun p => decide (holderOutcome (get_existing storage company.id d) p.2 = o)) = [] := by
      rw [List.filter_eq_nil_iff]
      intro p hp
      obtain ⟨pi, px⟩ := p
      obtain ⟨-, -, hpx⟩ := List.mem_enumFrom hp
      have hpmem : px ∈ batch := by
        rw [hpx]
        exact List.getElem_mem _
      have := hout px hpmem
      simp [this, hne, Ne.symm hne]
    rw [hfil]
    rfl
  obtain ⟨_, _, _, h4, h5⟩ :=
    mhLoop_closed (get_existing storage company.id d) company d batch 0
      { storage := storage, inserted_count := 0, updated_count := 0,
        nextId := max_id storage + 1, inserts := [], updates := [], unchanged := [] }
  constructor
  · show (insert_major_holders storage company batch d).inserted_count = 0
    rw [insert_major_holders, h4, hnil .insert (by intro h; cases h)]
    rfl
  · show (insert_major_holders storage company batch d).updated_count = 0
    rw [insert_major_holders, h5, hnil .update (by intro h; cases h)]
    rfl

/-- C3 counterexample: a batch containing two records with the same
natural key (percentages 1 and 2) against empty storage.  The first pass
inserts both (the existing-data snapshot is never refreshed); the second
pass, run against the resulting storage, emits one update — not zero —
because the earlier record now differs from the stored dict winner. -/
theorem C3_counterexample :
    (insert_major_holders [] sampleCompany [c3hd1, c3hd2] 5).inserted_count = 2 ∧
    (insert_major_holders
      (insert_major_holders [] sampleCompany [c3hd1, c3hd2] 5).storage
      sampleCompany [c3hd1, c3hd2] 5).updated_count = 1 := by
  decide

/-- C3 (amended): reconciliation is idempotent for the daily prices
partition unconditionally (re-filtering the same objects against the keys
extended by the inserted rows yields no new inserts), and for the holders
reconciliation provided the stored primary keys are unique, no two batch
records share a natural key, and every record compares unchanged against
itself (no NaN numeric fields): the second pass emits zero inserts and
zero updates. -/
theorem C3_idempotent :
    (∀ (objs : List Price) (keys : List (String × ℕ)),
      new_prices objs (apply_insert_keys keys (new_prices objs keys)) = []) ∧
    (∀ (storage : List HolderRow) (company : CompanyInfo) (batch : List HolderData) (d : ℕ),
      (storage.map HolderRow.id).Nodup →
      (batch.map dataKey).Nodup →
      (∀ hd ∈ batch, compare_major_holders hd hd = false) →
      (insert_major_holders (insert_major_holders storage company batch d).storage
        company batch d).inserted_count = 0 ∧
      (insert_major_holders (insert_major_holders storage company batch d).storage
        company batch d).updated_count = 0) := by
  constructor
  · intro objs keys
    rw [new_prices, List.filter_eq_nil_iff]
    intro p hp
    have hmem : price_key p ∈ apply_insert_keys keys (new_prices objs keys) := by
      by_cases h : price_key p ∈ keys
      · exact List.mem_append.mpr (Or.inl h)
      · refine List.mem_append.mpr (Or.inr ?_)
        refine List.mem_map.mpr ⟨p, ?_, rfl⟩
        rw [new_prices, List.mem_filter]
        exact ⟨hp, by simp [h]⟩
    simp [hmem]
  · intro storage company batch d hids hkeys hself
    have hinv0 : PassInv storage company.id d [] batch
        { storage := storage, inserted_count := 0, updated_count := 0,
          nextId := max_id storage + 1, inserts := [], updates := [], unchanged := [] } := by
      refine ⟨hids, ?_, ?_, ?_⟩
      · intro r hr
        exact Nat.lt_succ_of_le (le_max_id hr)
      · intro hd h
        exact absurd h (List.not_mem_nil hd)
      · intro hd _
        rfl
    have hfin := mhLoop_inv company d storage batch hkeys hself batch [] 0 _ rfl hinv0
    exact insert_unchanged_of_inv _ company batch d hfin.2.2.1

/-- C3 witness: the amended idempotence at a concrete storage and batch
(one stored row, one incoming record with a changed percentage). -/
theorem C3_idempotent_witness :
    (insert_major_holders (insert_major_holders [c5old] sampleCompany [c5inc] 5).storage
      sampleCompany [c5inc] 5).inserted_count = 0 ∧
    (insert_major_holders (insert_major_holders [c5old] sampleCompany [c5inc] 5).storage
      sampleCompany [c5inc] 5).updated_count = 0 :=
  C3_idempotent.2 [c5old] sampleCompany [c5inc] 5 (by decide) (by decide) (by decide)

end Stockmarket
